import Mathlib

/-!
Verification of the archive-session layer of the modorganizer-archive
library (`ArchiveImpl` in `archive.cpp`), as a shallow embedding.

The embedding follows the two observed variants of `archive.cpp`:
the Qt-string variant (called "legacy" below, whose `close()` does not
reset the cancellation flag) and the native-string variant (called
"canonical" below, whose `close()` does reset it).  The control flow of
`open` / `extract` / `cancel` and of the callback wrappers is identical
in both variants, so those are embedded once.

External collaborators are abstracted as explicit oracles:

* the filesystem checks made by `open` become two booleans
  (`pathExists`, `pathIsDir`);
* the bit7z `BitArchiveReader` construction becomes an
  `Except String BitArchiveInfo` (exception text or archive metadata);
* the engine's `extractTo` run becomes a list of callback signals
  (progress ticks and per-file notifications) followed by an outcome;
* `create_directories` / `copy_file` error codes become oracle
  functions returning `Option String` (an error-code message on
  failure, `none` on success);
* temporary-directory creation becomes an `Option FsPath`.

Session-visible effects (callback invocations, directories created,
files copied) are collected into explicit traces so that theorems can
speak about them.
-/

/-- Filesystem paths are modelled as lists of components; the C++
`operator/` becomes list append. -/
abbrev FsPath := List String

/-- Rendering of a path as the native string that the diagnostic
format strings interpolate. -/
def pathStr (p : FsPath) : String := String.intercalate "/" p

/-- Embedding of `fs::path::has_parent_path()` for the relative output
paths handled by the relocation loop: a path of at least two
components has a parent. -/
def hasParentPath (p : FsPath) : Bool := 2 ≤ p.length

/-- Embedding of `fs::path::parent_path()` for relative paths: drop
the last component. -/
def parentPath (p : FsPath) : FsPath := p.dropLast

/-- The `Error` enumeration of `archive.h` (the closed error taxonomy
of the session). -/
inductive Error where
  | ERROR_NONE
  | ERROR_LIBRARY_NOT_FOUND
  | ERROR_ARCHIVE_NOT_FOUND
  | ERROR_FAILED_TO_OPEN_ARCHIVE
  | ERROR_EXTRACT_CANCELLED
  | ERROR_LIBRARY_ERROR
  | ERROR_OUT_OF_MEMORY
  deriving DecidableEq, Repr

/-- One catalog entry: the fields of `FileDataImpl`
(`m_FileName`, `m_Size`, `m_CRC`, `m_OutputFilePaths`,
`m_IsDirectory`). -/
structure FileDataI where
  m_FileName : FsPath
  m_Size : Nat
  m_CRC : Nat
  m_OutputFilePaths : List FsPath
  m_IsDirectory : Bool
  deriving DecidableEq, Repr

instance : Inhabited FileDataI :=
  ⟨{ m_FileName := [], m_Size := 0, m_CRC := 0, m_OutputFilePaths := [],
     m_IsDirectory := false }⟩

/-- Embedding of `FileDataImpl::isEmpty()`: whether no output path was
requested for this entry. -/
def FileDataI.isEmpty (fd : FileDataI) : Bool := fd.m_OutputFilePaths.isEmpty

/-- One item as enumerated by the engine (`BitArchiveItem`): the four
properties `resetFileList` reads from it. -/
structure BitArchiveItem where
  path : FsPath
  size : Nat
  crc : Nat
  isDir : Bool
  deriving DecidableEq, Repr

/-- The data a successfully constructed `BitArchiveReader` exposes to
the session: the whole-archive uncompressed size (`size()`) and the
enumerated items (`itemsCount()` / iteration). -/
structure BitArchiveInfo where
  size : Nat
  items : List BitArchiveItem
  deriving DecidableEq, Repr

/-- The mutable state of one `ArchiveImpl` session.  `pwCalls` is a
ghost counter of how many times the caller-supplied password provider
has been invoked; it has no behavioral effect.  The provider itself is
modelled as a function from the invocation number to the returned
string, so that providers answering differently on repeated calls are
covered.  The three callback fields record only presence, since the
embedding reports callback invocations in explicit event traces.
The `m_FileMap` member of the Qt variant is omitted: the source only
ever writes to it. -/
structure ArchiveState where
  m_Valid : Bool
  m_LastError : Error
  m_shouldCancel : Bool
  m_ArchivePtr : Option BitArchiveInfo
  m_Total : Nat
  m_FileList : List FileDataI
  m_PasswordCallback : Option (Nat → String)
  m_Password : String
  pwCalls : Nat
  m_ProgressCallback : Bool
  m_FileChangeCallback : Bool
  m_ErrorCallback : Bool

/-- Embedding of `ArchiveImpl::clearFileList`. -/
def clearFileList (s : ArchiveState) : ArchiveState :=
  { s with m_FileList := [] }

/-- Embedding of `ArchiveImpl::resetFileList`: rebuild the catalog
with one record per engine item, in enumeration order, carrying the
item's path, size, CRC and directory flag (and no output paths). -/
def resetFileList (s : ArchiveState) : ArchiveState :=
  match s.m_ArchivePtr with
  | some info =>
      { (clearFileList s) with
        m_FileList := info.items.map (fun it =>
          { m_FileName := it.path, m_Size := it.size, m_CRC := it.crc,
            m_OutputFilePaths := [], m_IsDirectory := it.isDir }) }
  | none => clearFileList s

/-- Embedding of `ArchiveImpl::open` (identical in both variants).
`pathExists` and `pathIsDir` stand for the `exists` / `is_directory`
filesystem checks on `archiveName`; `engineResult` stands for the
outcome of constructing the `BitArchiveReader` and reading its
metadata inside the `try` block. -/
def openArchive (s : ArchiveState) (pathExists pathIsDir : Bool)
    (passwordCallback : Option (Nat → String))
    (engineResult : Except String BitArchiveInfo) : Bool × ArchiveState :=
  if !s.m_Valid then
    (false, s)
  else if !pathExists || pathIsDir then
    (false, { s with m_LastError := Error.ERROR_ARCHIVE_NOT_FOUND })
  else
    match engineResult with
    | Except.ok info =>
        let s := { s with
          m_ArchivePtr := some info,
          m_PasswordCallback := passwordCallback,
          m_Total := info.size,
          m_LastError := Error.ERROR_NONE }
        (true, resetFileList s)
    | Except.error _ =>
        (false, { s with m_LastError := Error.ERROR_FAILED_TO_OPEN_ARCHIVE })

/-- Embedding of `ArchiveImpl::close` in the canonical (native-string)
variant: destroy the engine handle, clear the catalog, drop the
password callback and reset the cancellation flag.  The cached
password string `m_Password` is not touched. -/
def close (s : ArchiveState) : ArchiveState :=
  { s with
    m_ArchivePtr := none,
    m_FileList := [],
    m_PasswordCallback := none,
    m_shouldCancel := false }

/-- Embedding of `ArchiveImpl::close` in the legacy (Qt) variant,
which does not reset `m_shouldCancel`. -/
def closeLegacy (s : ArchiveState) : ArchiveState :=
  { s with
    m_ArchivePtr := none,
    m_FileList := [],
    m_PasswordCallback := none }

/-- Embedding of `ArchiveImpl::cancel`: store `true` into the atomic
cancellation flag. -/
def cancel (s : ArchiveState) : ArchiveState :=
  { s with m_shouldCancel := true }

/-- Embedding of `ArchiveImpl::passwordCallbackWrapper`: if the cached
password is empty and a provider is present, invoke the provider and
cache its answer; return the (possibly updated) cached password. -/
def passwordCallbackWrapper (s : ArchiveState) : String × ArchiveState :=
  if s.m_Password.isEmpty then
    match s.m_PasswordCallback with
    | some f =>
        let p := f s.pwCalls
        (p, { s with m_Password := p, pwCalls := s.pwCalls + 1 })
    | none => (s.m_Password, s)
  else
    (s.m_Password, s)

/-- A sequence of `n` password queries issued by the engine during one
open/extract cycle, each answered by `passwordCallbackWrapper`;
returns the answers in order and the final session state. -/
def pwQueries : ArchiveState → Nat → List String × ArchiveState
  | s, 0 => ([], s)
  | s, n + 1 =>
      let (p, s') := passwordCallbackWrapper s
      let (ps, s'') := pwQueries s' n
      (p :: ps, s'')

/-- Observable callback invocations made by the session during
`extract`. -/
inductive Event where
  | progress (current total : Nat)
  | fileChange (path : FsPath)
  | error (message : String)
  deriving DecidableEq, Repr

/-- Embedding of `ArchiveImpl::progressCallbackWrapper`: deliver the
progress notification `(current, m_Total)` to the caller, then return
the continue signal `!m_shouldCancel`. -/
def progressCallbackWrapper (s : ArchiveState) (current : Nat) : Bool × Event :=
  (!s.m_shouldCancel, Event.progress current s.m_Total)

/-- Embedding of `ArchiveImpl::fileChangeCallbackWrapper`. -/
def fileChangeCallbackWrapper (path : FsPath) : Event :=
  Event.fileChange path

/-- Embedding of `ArchiveImpl::reportError`: invoke the error callback
with the message when one is installed. -/
def reportError (s : ArchiveState) (msg : String) : List Event :=
  if s.m_ErrorCallback then [Event.error msg] else []

/-- One callback signal raised by the engine while `extractTo` runs:
either a progress tick with a byte count, or a per-file notification. -/
inductive EngineSignal where
  | tick (current : Nat)
  | fileStart (path : FsPath)
  deriving DecidableEq, Repr

/-- Run of the engine's `extractTo`: deliver each signal through the
wrappers the session installed (a wrapper is installed only when the
corresponding caller callback is present).  When a progress wrapper
returns `false` the engine aborts `extractTo` with an exception;
otherwise the supplied `outcome` (normal completion or an engine
exception with its text) stands.  Returns the events delivered to the
caller and the result of `extractTo`. -/
def runEngine (s : ArchiveState) :
    List EngineSignal → Except String Unit → List Event × Except String Unit
  | [], outcome => ([], outcome)
  | EngineSignal.tick c :: rest, outcome =>
      if s.m_ProgressCallback then
        let (cont, ev) := progressCallbackWrapper s c
        if cont then
          let (evs, r) := runEngine s rest outcome
          (ev :: evs, r)
        else
          ([ev], Except.error "operation aborted by the progress callback")
      else
        runEngine s rest outcome
  | EngineSignal.fileStart p :: rest, outcome =>
      if s.m_FileChangeCallback then
        let (evs, r) := runEngine s rest outcome
        (fileChangeCallbackWrapper p :: evs, r)
      else
        runEngine s rest outcome

/-- Embedding of the index-selection loop of `ArchiveImpl::extract`
(`for i in 0..m_FileList.size(): if !isEmpty then indices.push_back(i)`),
with `i` starting at `k`. -/
def selectIndicesAux : List FileDataI → Nat → List Nat
  | [], _ => []
  | fd :: rest, k =>
      if fd.isEmpty then selectIndicesAux rest (k + 1)
      else k :: selectIndicesAux rest (k + 1)

/-- The index list `extract` passes to the engine's `extractTo`. -/
def selectIndices (l : List FileDataI) : List Nat := selectIndicesAux l 0

/-- Embedding of the `totalSize` accumulation of the same loop: the
summed size of the selected entries. -/
def selectedTotalSize : List FileDataI → Nat
  | [] => 0
  | fd :: rest =>
      (if fd.isEmpty then 0 else fd.m_Size) + selectedTotalSize rest

/-- Log of filesystem effects performed by the relocation phase. -/
structure FsLog where
  dirs : List FsPath
  copies : List (FsPath × FsPath)
  deriving DecidableEq, Repr

/-- Result of the relocation loop: success, or the first failure with
its diagnostic message; in both cases the filesystem effects performed
so far are kept (nothing is rolled back). -/
inductive RelocOut where
  | ok (log : FsLog)
  | fail (msg : String) (log : FsLog)
  deriving DecidableEq, Repr

/-- Diagnostic built by the relocation loop for a
`create_directories` failure, mirroring the format string
"Error creating output directory %1: %2". -/
def mkdirErrorMessage (target : FsPath) (ecMsg : String) : String :=
  "Error creating output directory " ++ pathStr target ++ ": " ++ ecMsg

/-- Diagnostic built by the relocation loop for a `copy_file` failure,
mirroring the format string "Error writing to output file %1: %2". -/
def copyErrorMessage (target : FsPath) (ecMsg : String) : String :=
  "Error writing to output file " ++ pathStr target ++ ": " ++ ecMsg

/-- Relocation of a directory entry: materialize the directory at
every requested output path (`create_directories(outputDirectory /
outputFilePath)`), stopping at the first failure. -/
def relocDirOutputs (outputDirectory : FsPath) (mkdirEC : FsPath → Option String) :
    List FsPath → FsLog → RelocOut
  | [], log => RelocOut.ok log
  | out :: rest, log =>
      let targetDirectory := outputDirectory ++ out
      match mkdirEC targetDirectory with
      | some ecMsg => RelocOut.fail (mkdirErrorMessage targetDirectory ecMsg) log
      | none =>
          relocDirOutputs outputDirectory mkdirEC rest
            { log with dirs := log.dirs ++ [targetDirectory] }

/-- Relocation of a file entry: for every requested output path,
create the destination parent directory, then copy the staged file
`tmpDir / archiveFilePath` to `outputDirectory / outputFilePath`,
stopping at the first failure. -/
def relocFileOutputs (outputDirectory tmpDir archiveFilePath : FsPath)
    (mkdirEC : FsPath → Option String) (copyEC : FsPath → FsPath → Option String) :
    List FsPath → FsLog → RelocOut
  | [], log => RelocOut.ok log
  | out :: rest, log =>
      let targetDirectory :=
        if hasParentPath out then outputDirectory ++ parentPath out
        else outputDirectory
      match mkdirEC targetDirectory with
      | some ecMsg => RelocOut.fail (mkdirErrorMessage targetDirectory ecMsg) log
      | none =>
          let log := { log with dirs := log.dirs ++ [targetDirectory] }
          let src := tmpDir ++ archiveFilePath
          let dst := outputDirectory ++ out
          match copyEC src dst with
          | some ecMsg => RelocOut.fail (copyErrorMessage dst ecMsg) log
          | none =>
              relocFileOutputs outputDirectory tmpDir archiveFilePath mkdirEC copyEC
                rest { log with copies := log.copies ++ [(src, dst)] }

/-- The relocation loop of `ArchiveImpl::extract` over the whole
catalog ("copy files to target locations"). -/
def relocEntries (outputDirectory tmpDir : FsPath)
    (mkdirEC : FsPath → Option String) (copyEC : FsPath → FsPath → Option String) :
    List FileDataI → FsLog → RelocOut
  | [], log => RelocOut.ok log
  | fd :: rest, log =>
      let r :=
        if fd.m_IsDirectory then
          relocDirOutputs outputDirectory mkdirEC fd.m_OutputFilePaths log
        else
          relocFileOutputs outputDirectory tmpDir fd.m_FileName mkdirEC copyEC
            fd.m_OutputFilePaths log
      match r with
      | RelocOut.ok log' =>
          relocEntries outputDirectory tmpDir mkdirEC copyEC rest log'
      | RelocOut.fail msg log' => RelocOut.fail msg log'

/-- Oracle inputs of one `extract` call: which caller callbacks are
supplied, the outcome of temporary-directory creation, the engine's
behavior during `extractTo`, and the error codes of the relocation
filesystem operations. -/
structure ExtractIn where
  progressCallback : Bool
  fileChangeCallback : Bool
  errorCallback : Bool
  tmpDirResult : Option FsPath
  engineSignals : List EngineSignal
  engineOutcome : Except String Unit
  mkdirEC : FsPath → Option String
  copyEC : FsPath → FsPath → Option String

/-- Observable result of one `extract` call: the returned boolean, the
session state afterwards, the events delivered to the caller's
callbacks, the filesystem effects performed, whether the engine's
`extractTo` was reached, and (as ghost observations) the index list
passed to `extractTo` and the local `totalSize` the loop computed. -/
structure ExtractOut where
  ok : Bool
  state : ArchiveState
  events : List Event
  log : FsLog
  engineInvoked : Bool
  indices : List Nat
  totalSize : Nat

/-- Embedding of `ArchiveImpl::extract`: invalid-session bailout,
callback installation, index selection, temporary-directory creation
(failure mapped to `ERROR_OUT_OF_MEMORY`), the engine `extractTo` run
(an exception mapped to `ERROR_EXTRACT_CANCELLED` when the
cancellation flag is set, else `ERROR_LIBRARY_ERROR`), and the
relocation loop (a failure mapped to `ERROR_LIBRARY_ERROR`). -/
def extract (s : ArchiveState) (outputDirectory : FsPath) (inp : ExtractIn) :
    ExtractOut :=
  if !s.m_Valid then
    { ok := false, state := s, events := [], log := { dirs := [], copies := [] },
      engineInvoked := false, indices := [], totalSize := 0 }
  else
    let s := { s with
      m_ProgressCallback := inp.progressCallback,
      m_FileChangeCallback := inp.fileChangeCallback,
      m_ErrorCallback := inp.errorCallback }
    let indices := selectIndices s.m_FileList
    let totalSize := selectedTotalSize s.m_FileList
    match inp.tmpDirResult with
    | none =>
        let s := { s with m_LastError := Error.ERROR_OUT_OF_MEMORY }
        { ok := false, state := s,
          events := reportError s
            "Error creating a temporary directory for extraction",
          log := { dirs := [], copies := [] }, engineInvoked := false,
          indices := indices, totalSize := totalSize }
    | some tmpDir =>
        match runEngine s inp.engineSignals inp.engineOutcome with
        | (engEvents, Except.error exText) =>
            let s := { s with
              m_LastError :=
                if s.m_shouldCancel then Error.ERROR_EXTRACT_CANCELLED
                else Error.ERROR_LIBRARY_ERROR }
            { ok := false, state := s,
              events := engEvents ++ reportError s exText,
              log := { dirs := [], copies := [] }, engineInvoked := true,
              indices := indices, totalSize := totalSize }
        | (engEvents, Except.ok _) =>
            match relocEntries outputDirectory tmpDir inp.mkdirEC inp.copyEC
                s.m_FileList { dirs := [], copies := [] } with
            | RelocOut.ok log =>
                { ok := true, state := s, events := engEvents, log := log,
                  engineInvoked := true, indices := indices,
                  totalSize := totalSize }
            | RelocOut.fail msg log =>
                let s := { s with m_LastError := Error.ERROR_LIBRARY_ERROR }
                { ok := false, state := s,
                  events := engEvents ++ reportError s msg, log := log,
                  engineInvoked := true, indices := indices,
                  totalSize := totalSize }

/-- A fresh, valid session as produced by the constructor when the 7z
library loaded successfully (no archive opened yet). -/
def freshState : ArchiveState :=
  { m_Valid := true, m_LastError := Error.ERROR_NONE, m_shouldCancel := false,
    m_ArchivePtr := none, m_Total := 0, m_FileList := [],
    m_PasswordCallback := none, m_Password := "", pwCalls := 0,
    m_ProgressCallback := false, m_FileChangeCallback := false,
    m_ErrorCallback := false }

/-- Sample catalog entry with no requested output path. -/
def entryNoOutput : FileDataI :=
  { m_FileName := ["skip.txt"], m_Size := 5, m_CRC := 3,
    m_OutputFilePaths := [], m_IsDirectory := false }

/-- Sample catalog entry requesting one output path. -/
def entryA : FileDataI :=
  { m_FileName := ["a.txt"], m_Size := 10, m_CRC := 1,
    m_OutputFilePaths := [["a.txt"]], m_IsDirectory := false }

/-- Second sample catalog entry requesting one output path. -/
def entryB : FileDataI :=
  { m_FileName := ["b.txt"], m_Size := 20, m_CRC := 2,
    m_OutputFilePaths := [["b.txt"]], m_IsDirectory := false }

/-- Sample archive metadata as the engine would report it. -/
def sampleInfo : BitArchiveInfo :=
  { size := 30,
    items := [ { path := ["a.txt"], size := 10, crc := 1, isDir := false },
               { path := ["dir"], size := 0, crc := 0, isDir := true } ] }

/-- Extract-call oracles for a run where everything succeeds and no
callback is supplied. -/
def benignIn : ExtractIn :=
  { progressCallback := false, fileChangeCallback := false,
    errorCallback := false, tmpDirResult := some ["tmp"],
    engineSignals := [], engineOutcome := Except.ok (),
    mkdirEC := fun _ => none, copyEC := fun _ _ => none }

/-- Session with a stale failure value recorded and one unselected
catalog entry. -/
def sC2 : ArchiveState :=
  { freshState with
    m_LastError := Error.ERROR_LIBRARY_ERROR,
    m_FileList := [entryNoOutput] }

/-- Session whose password provider answers the empty string on its
first invocation and "x" afterwards. -/
def sPwEmpty : ArchiveState :=
  { freshState with
    m_PasswordCallback := some (fun n => if n = 0 then "" else "x") }

/-- Session with a cached password and the cancellation flag set, as
left behind by a cancelled extraction of an encrypted archive. -/
def sC1 : ArchiveState :=
  { freshState with
    m_Password := "secret",
    m_shouldCancel := true }

/-- Session state whose password provider always answers "pw". -/
def sPwGood : ArchiveState :=
  { freshState with m_PasswordCallback := some (fun _ => "pw") }

/-- Extract-call oracles with a progress callback installed and an
engine that immediately reports a first progress tick of 0 bytes. -/
def tickingIn : ExtractIn :=
  { progressCallback := true, fileChangeCallback := false,
    errorCallback := true, tmpDirResult := some ["tmp"],
    engineSignals := [EngineSignal.tick 0], engineOutcome := Except.ok (),
    mkdirEC := fun _ => none, copyEC := fun _ _ => none }

/-- Extract-call oracles where temporary-directory creation fails and
an error callback is supplied. -/
def failTmpIn : ExtractIn :=
  { progressCallback := false, fileChangeCallback := false,
    errorCallback := true, tmpDirResult := none, engineSignals := [],
    engineOutcome := Except.ok (), mkdirEC := fun _ => none,
    copyEC := fun _ _ => none }

/-- Session with two selected file entries in the catalog. -/
def sAB : ArchiveState :=
  { freshState with m_FileList := [entryA, entryB] }

/-- Extract-call oracles where copying to dest/b.txt fails with
"disk full" while everything else succeeds. -/
def failCopyIn : ExtractIn :=
  { progressCallback := false, fileChangeCallback := false,
    errorCallback := true, tmpDirResult := some ["tmp"],
    engineSignals := [], engineOutcome := Except.ok (),
    mkdirEC := fun _ => none,
    copyEC := fun _ dst =>
      if dst = ["dest", "b.txt"] then some "disk full" else none }

/-- Session whose catalog interleaves selected and unselected
entries. -/
def sABskip : ArchiveState :=
  { freshState with m_FileList := [entryA, entryNoOutput, entryB] }

/-- Session whose open-time total (30) differs from the summed size of
the selected entries (10). -/
def sC10 : ArchiveState :=
  { freshState with
    m_Total := 30,
    m_FileList := [entryA] }

/-- Extract-call oracles with a progress callback and one engine tick
of 5 bytes. -/
def tick5In : ExtractIn :=
  { progressCallback := true, fileChangeCallback := false,
    errorCallback := false, tmpDirResult := some ["tmp"],
    engineSignals := [EngineSignal.tick 5], engineOutcome := Except.ok (),
    mkdirEC := fun _ => none, copyEC := fun _ _ => none }

theorem resetFileList_m_LastError (s : ArchiveState) :
    (resetFileList s).m_LastError = s.m_LastError := by
  unfold resetFileList clearFileList
  cases h : s.m_ArchivePtr <;> simp [h]

/-- Claim C1, counterexample: on the session `sC1` (cached password
"secret", cancellation flag set), `close` of the canonical variant
leaves the cached password in place, and `close` of the legacy variant
leaves the cancellation flag set — so close() neither clears the
cached password nor (in the legacy variant) resets the flag, contrary
to the claim. -/
theorem close_cex_password_and_flag :
    (close sC1).m_Password = "secret" ∧
    (closeLegacy sC1).m_shouldCancel = true :=
  ⟨rfl, rfl⟩

/-- Claim C1 as amended: after close() the session holds no engine
handle, the catalog is empty and the password callback is dropped; the
canonical variant also resets the cancellation flag while the legacy
variant leaves it unchanged; the cached password string survives in
both; and a second close() leaves the session unchanged. -/
theorem close_spec_amended (s : ArchiveState) :
    (close s).m_ArchivePtr = none ∧
    (close s).m_FileList = [] ∧
    (close s).m_PasswordCallback = none ∧
    (close s).m_shouldCancel = false ∧
    (close s).m_Password = s.m_Password ∧
    (closeLegacy s).m_ArchivePtr = none ∧
    (closeLegacy s).m_FileList = [] ∧
    (closeLegacy s).m_PasswordCallback = none ∧
    (closeLegacy s).m_shouldCancel = s.m_shouldCancel ∧
    (closeLegacy s).m_Password = s.m_Password ∧
    close (close s) = close s ∧
    closeLegacy (closeLegacy s) = closeLegacy s :=
  ⟨rfl, rfl, rfl, rfl, rfl, rfl, rfl, rfl, rfl, rfl, rfl, rfl⟩

/-- Claim C2, counterexample: on session `sC2` (stale
`ERROR_LIBRARY_ERROR` from an earlier failed operation, one unselected
entry), a fully successful extract() returns true yet
`getLastError()` still reports `ERROR_LIBRARY_ERROR`, not the none
value. -/
theorem extract_success_stale_error_cex :
    (extract sC2 ["dest"] benignIn).ok = true ∧
    (extract sC2 ["dest"] benignIn).state.m_LastError =
      Error.ERROR_LIBRARY_ERROR ∧
    Error.ERROR_LIBRARY_ERROR ≠ Error.ERROR_NONE :=
  ⟨rfl, rfl, by decide⟩

/-- Claim C2 as amended: open() returning true leaves the last error
equal to `ERROR_NONE`, but extract() returning true leaves the last
error exactly as it was before the call — a successful extraction does
not clear a failure value recorded by an earlier operation. -/
theorem lastError_after_success :
    (∀ (s : ArchiveState) (pe pd : Bool) (pw : Option (Nat → String))
        (er : Except String BitArchiveInfo),
        (openArchive s pe pd pw er).1 = true →
        (openArchive s pe pd pw er).2.m_LastError = Error.ERROR_NONE) ∧
    (∀ (s : ArchiveState) (odir : FsPath) (inp : ExtractIn),
        (extract s odir inp).ok = true →
        (extract s odir inp).state.m_LastError = s.m_LastError) := by
  constructor
  · intro s pe pd pw er h
    cases hv : s.m_Valid with
    | false => simp [openArchive, hv] at h
    | true =>
      cases hpe : pe with
      | false => simp [openArchive, hv, hpe] at h
      | true =>
        cases hpd : pd with
        | true => simp [openArchive, hv, hpe, hpd] at h
        | false =>
          cases er with
          | error e => simp [openArchive, hv, hpe, hpd] at h
          | ok info =>
              simp [openArchive, hv, hpe, hpd, resetFileList_m_LastError]
  · intro s odir inp
    unfold extract
    split
    · intro h; simp at h
    · dsimp only
      split
      · intro h; simp at h
      · split
        · intro h; simp at h
        · split
          · intro _; rfl
          · intro h; simp at h

/-- Claim C2 witness: the amended statement applied to a concrete
successful open and a concrete successful extract on a session with a
stale error. -/
theorem lastError_after_success_witness :
    (openArchive freshState true false none
        (Except.ok sampleInfo)).2.m_LastError = Error.ERROR_NONE ∧
    (extract sC2 ["dest"] benignIn).state.m_LastError = sC2.m_LastError :=
  ⟨lastError_after_success.1 freshState true false none
      (Except.ok sampleInfo) rfl,
   lastError_after_success.2 sC2 ["dest"] benignIn rfl⟩

/-- Claim C3, counterexample: on session `sPwEmpty`, whose provider
answers "" on its first invocation and "x" afterwards, two engine
password queries invoke the provider twice (not at most once), and the
second query receives "x", not the value "" the first invocation
returned. -/
theorem password_reasked_cex :
    (pwQueries sPwEmpty 2).1 = ["", "x"] ∧
    (pwQueries sPwEmpty 2).2.pwCalls = 2 ∧
    ¬ ((pwQueries sPwEmpty 2).2.pwCalls ≤ 1) ∧
    ("x" : String) ≠ "" := by
  refine ⟨rfl, rfl, ?_, by decide⟩
  have h : (pwQueries sPwEmpty 2).2.pwCalls = 2 := rfl
  omega

theorem passwordCallbackWrapper_stable (s : ArchiveState)
    (h : s.m_Password.isEmpty = false) :
    passwordCallbackWrapper s = (s.m_Password, s) := by
  unfold passwordCallbackWrapper
  simp [h]

theorem pwQueries_stable (s : ArchiveState)
    (h : s.m_Password.isEmpty = false) :
    ∀ n, pwQueries s n = (List.replicate n s.m_Password, s) := by
  intro n
  induction n with
  | zero => rfl
  | succ k ih =>
      simp [pwQueries, passwordCallbackWrapper_stable s h, ih,
        List.replicate_succ]

/-- Claim C3 as amended: on a fresh cycle (empty password cache, no
invocation yet) with a provider whose first answer is non-empty, any
number of engine password queries invokes the provider at most once
and every query receives that first answer; (a provider answering the
empty string is re-invoked on later queries, see the
counterexample). -/
theorem password_asked_once (s : ArchiveState) (f : Nat → String) (n : Nat)
    (hcb : s.m_PasswordCallback = some f)
    (hpw : s.m_Password.isEmpty = true)
    (h0 : s.pwCalls = 0)
    (hne : (f 0).isEmpty = false) :
    (pwQueries s n).2.pwCalls ≤ 1 ∧
    ∀ p ∈ (pwQueries s n).1, p = f 0 := by
  cases n with
  | zero => simp [pwQueries, h0]
  | succ k =>
      have hw : passwordCallbackWrapper s =
          (f 0, { s with m_Password := f 0, pwCalls := 1 }) := by
        unfold passwordCallbackWrapper
        rw [hpw, hcb, h0]
        simp
      have hs' : ({ s with m_Password := f 0, pwCalls := 1 } :
          ArchiveState).m_Password.isEmpty = false := hne
      have hrest := pwQueries_stable _ hs' k
      simp [pwQueries, hw, hrest]

/-- Claim C3 witness: the amended statement applied to a session whose
provider always answers "pw", queried three times. -/
theorem password_asked_once_witness :
    (pwQueries sPwGood 3).2.pwCalls ≤ 1 ∧
    ∀ p ∈ (pwQueries sPwGood 3).1, p = "pw" :=
  password_asked_once sPwGood (fun _ => "pw") 3 rfl rfl rfl rfl

theorem extract_cancelled_helper (s : ArchiveState) (odir tmp : FsPath)
    (inp : ExtractIn) (c : Nat) (rest : List EngineSignal)
    (hv : s.m_Valid = true) (hc : s.m_shouldCancel = true)
    (hp : inp.progressCallback = true)
    (ht : inp.tmpDirResult = some tmp)
    (hsig : inp.engineSignals = EngineSignal.tick c :: rest) :
    (extract s odir inp).ok = false ∧
    (extract s odir inp).state.m_LastError = Error.ERROR_EXTRACT_CANCELLED ∧
    (extract s odir inp).events.head? = some (Event.progress c s.m_Total) := by
  have hrun : runEngine { s with
        m_ProgressCallback := inp.progressCallback,
        m_FileChangeCallback := inp.fileChangeCallback,
        m_ErrorCallback := inp.errorCallback } inp.engineSignals
        inp.engineOutcome =
      ([Event.progress c s.m_Total],
        Except.error "operation aborted by the progress callback") := by
    rw [hsig]
    simp [runEngine, progressCallbackWrapper, hp, hc]
  rw [hv, hc] at hrun
  simp [extract, hv, ht, hrun, hc, reportError]

/-- Claim C4: calling cancel() before the first progress tick of an
in-flight extract() makes the first tick deliver its progress
notification and then return the stop signal; the engine abort is
caught and extract() returns false with last error
`ERROR_EXTRACT_CANCELLED`. -/
theorem cancel_before_first_tick (s : ArchiveState) (odir tmp : FsPath)
    (inp : ExtractIn) (c : Nat) (rest : List EngineSignal)
    (hv : s.m_Valid = true)
    (hp : inp.progressCallback = true)
    (ht : inp.tmpDirResult = some tmp)
    (hsig : inp.engineSignals = EngineSignal.tick c :: rest) :
    (extract (cancel s) odir inp).ok = false ∧
    (extract (cancel s) odir inp).state.m_LastError =
      Error.ERROR_EXTRACT_CANCELLED ∧
    (extract (cancel s) odir inp).events.head? =
      some (Event.progress c s.m_Total) :=
  extract_cancelled_helper (cancel s) odir tmp inp c rest hv rfl hp ht hsig

/-- Claim C4 witness: a cancelled fresh session extracting with a
single engine tick of 0 bytes. -/
theorem cancel_before_first_tick_witness :
    (extract (cancel freshState) ["dest"] tickingIn).ok = false ∧
    (extract (cancel freshState) ["dest"] tickingIn).state.m_LastError =
      Error.ERROR_EXTRACT_CANCELLED ∧
    (extract (cancel freshState) ["dest"] tickingIn).events.head? =
      some (Event.progress 0 freshState.m_Total) :=
  cancel_before_first_tick freshState ["dest"] ["tmp"] tickingIn 0 []
    rfl rfl rfl rfl

/-- Claim C8: on a valid session, open() on a path that does not exist
or is a directory returns false, records `ERROR_ARCHIVE_NOT_FOUND`,
and changes nothing else — in particular no engine handle is
created. -/
theorem open_not_found_spec (s : ArchiveState) (pe pd : Bool)
    (pw : Option (Nat → String)) (er : Except String BitArchiveInfo)
    (hv : s.m_Valid = true) (h : pe = false ∨ pd = true) :
    openArchive s pe pd pw er =
      (false, { s with m_LastError := Error.ERROR_ARCHIVE_NOT_FOUND }) ∧
    (openArchive s pe pd pw er).2.m_ArchivePtr = s.m_ArchivePtr ∧
    (openArchive s pe pd pw er).1 = false := by
  have hmain : openArchive s pe pd pw er =
      (false, { s with m_LastError := Error.ERROR_ARCHIVE_NOT_FOUND }) := by
    rcases h with h | h <;> simp [openArchive, hv, h]
  exact ⟨hmain, by rw [hmain], by rw [hmain]⟩

/-- Claim C8 witness: opening a non-existent path on a fresh valid
session, with no password provider. -/
theorem open_not_found_spec_witness :
    openArchive freshState false false none (Except.error "unused") =
      (false,
        { freshState with m_LastError := Error.ERROR_ARCHIVE_NOT_FOUND }) ∧
    (openArchive freshState false false none
        (Except.error "unused")).2.m_ArchivePtr = freshState.m_ArchivePtr ∧
    (openArchive freshState false false none (Except.error "unused")).1 =
      false :=
  open_not_found_spec freshState false false none (Except.error "unused")
    rfl (Or.inl rfl)

/-- Claim C7: a successful open() rebuilds the catalog with exactly
one record per engine item, in engine enumeration order, carrying the
item's path, size, CRC and directory flag; close() empties the
catalog in both variants. -/
theorem getFileList_spec :
    (∀ (s : ArchiveState) (pe pd : Bool) (pw : Option (Nat → String))
        (er : Except String BitArchiveInfo),
        (openArchive s pe pd pw er).1 = true →
        ∃ info, er = Except.ok info ∧
          (openArchive s pe pd pw er).2.m_FileList =
            info.items.map (fun it =>
              { m_FileName := it.path, m_Size := it.size, m_CRC := it.crc,
                m_OutputFilePaths := [], m_IsDirectory := it.isDir }) ∧
          (openArchive s pe pd pw er).2.m_FileList.length =
            info.items.length) ∧
    (∀ s : ArchiveState,
        (close s).m_FileList = [] ∧ (closeLegacy s).m_FileList = []) := by
  constructor
  · intro s pe pd pw er h
    cases hv : s.m_Valid with
    | false => simp [openArchive, hv] at h
    | true =>
      cases hpe : pe with
      | false => simp [openArchive, hv, hpe] at h
      | true =>
        cases hpd : pd with
        | true => simp [openArchive, hv, hpe, hpd] at h
        | false =>
          cases er with
          | error e => simp [openArchive, hv, hpe, hpd] at h
          | ok info =>
              refine ⟨info, rfl, ?_, ?_⟩
              · simp [openArchive, hv, hpe, hpd, resetFileList,
                  clearFileList]
              · simp [openArchive, hv, hpe, hpd, resetFileList,
                  clearFileList]
  · intro s
    exact ⟨rfl, rfl⟩

/-- Claim C7 witness: a fresh session opening the two-item sample
archive, then closing it. -/
theorem getFileList_spec_witness :
    (∃ info, (Except.ok sampleInfo : Except String BitArchiveInfo) =
        Except.ok info ∧
      (openArchive freshState true false none
          (Except.ok sampleInfo)).2.m_FileList =
        info.items.map (fun it =>
          { m_FileName := it.path, m_Size := it.size, m_CRC := it.crc,
            m_OutputFilePaths := [], m_IsDirectory := it.isDir }) ∧
      (openArchive freshState true false none
          (Except.ok sampleInfo)).2.m_FileList.length =
        info.items.length) ∧
    (close (openArchive freshState true false none
        (Except.ok sampleInfo)).2).m_FileList = [] :=
  ⟨getFileList_spec.1 freshState true false none (Except.ok sampleInfo) rfl,
   (getFileList_spec.2 _).1⟩

/-- Claim C9: cancel() sets the cancellation flag; no code path of
extract() modifies it, so it survives a cancelled extract() and a
second extract() on the same still-open session is halted at its own
first progress tick with `ERROR_EXTRACT_CANCELLED`; the canonical
variant's close() resets the flag to false while the legacy variant's
close() leaves it unchanged. -/
theorem cancel_flag_persistence :
    (∀ s : ArchiveState, (cancel s).m_shouldCancel = true) ∧
    (∀ (s : ArchiveState) (odir : FsPath) (inp : ExtractIn),
        (extract s odir inp).state.m_shouldCancel = s.m_shouldCancel) ∧
    (∀ (s : ArchiveState) (odir tmp : FsPath) (inp : ExtractIn) (c : Nat)
        (rest : List EngineSignal),
        s.m_Valid = true → s.m_shouldCancel = true →
        inp.progressCallback = true → inp.tmpDirResult = some tmp →
        inp.engineSignals = EngineSignal.tick c :: rest →
        (extract s odir inp).ok = false ∧
        (extract s odir inp).state.m_LastError =
          Error.ERROR_EXTRACT_CANCELLED) ∧
    (∀ s : ArchiveState, (close s).m_shouldCancel = false) ∧
    (∀ s : ArchiveState,
        (closeLegacy s).m_shouldCancel = s.m_shouldCancel) := by
  refine ⟨fun s => rfl, ?_, ?_, fun s => rfl, fun s => rfl⟩
  · intro s odir inp
    unfold extract
    split
    · rfl
    · dsimp only
      split
      · rfl
      · split
        · rfl
        · split
          · rfl
          · rfl
  · intro s odir tmp inp c rest hv hc hp ht hsig
    have h := extract_cancelled_helper s odir tmp inp c rest hv hc hp ht hsig
    exact ⟨h.1, h.2.1⟩

/-- Claim C9 witness: a cancelled fresh session keeps its flag across
a halted extract(), and only the canonical close() clears it. -/
theorem cancel_flag_persistence_witness :
    (cancel freshState).m_shouldCancel = true ∧
    (extract (cancel freshState) ["out"] tickingIn).state.m_shouldCancel =
      (cancel freshState).m_shouldCancel ∧
    (extract (cancel freshState) ["out"] tickingIn).ok = false ∧
    (close (cancel freshState)).m_shouldCancel = false ∧
    (closeLegacy (cancel freshState)).m_shouldCancel =
      (cancel freshState).m_shouldCancel :=
  ⟨cancel_flag_persistence.1 freshState,
   cancel_flag_persistence.2.1 (cancel freshState) ["out"] tickingIn,
   (cancel_flag_persistence.2.2.1 (cancel freshState) ["out"] ["tmp"]
      tickingIn 0 [] rfl rfl rfl rfl rfl).1,
   cancel_flag_persistence.2.2.2.1 (cancel freshState),
   cancel_flag_persistence.2.2.2.2 (cancel freshState)⟩

theorem relocDirOutputs_fail_shape (odir : FsPath)
    (mk : FsPath → Option String) :
    ∀ (outs : List FsPath) (log : FsLog) (msg : String) (log' : FsLog),
      relocDirOutputs odir mk outs log = RelocOut.fail msg log' →
      ∃ t ec, msg = mkdirErrorMessage t ec ∨ msg = copyErrorMessage t ec := by
  intro outs
  induction outs with
  | nil =>
      intro log msg log' h
      simp [relocDirOutputs] at h
  | cons out rest ih =>
      intro log msg log' h
      unfold relocDirOutputs at h
      dsimp only at h
      split at h
      · rename_i ec hmk
        injection h with hmsg hlog
        exact ⟨odir ++ out, ec, Or.inl hmsg.symm⟩
      · exact ih _ _ _ h

theorem relocFileOutputs_fail_shape (odir tmp afp : FsPath)
    (mk : FsPath → Option String) (cp : FsPath → FsPath → Option String) :
    ∀ (outs : List FsPath) (log : FsLog) (msg : String) (log' : FsLog),
      relocFileOutputs odir tmp afp mk cp outs log = RelocOut.fail msg log' →
      ∃ t ec, msg = mkdirErrorMessage t ec ∨ msg = copyErrorMessage t ec := by
  intro outs
  induction outs with
  | nil =>
      intro log msg log' h
      simp [relocFileOutputs] at h
  | cons out rest ih =>
      intro log msg log' h
      unfold relocFileOutputs at h
      dsimp only at h
      split at h
      · rename_i ec hmk
        injection h with hmsg hlog
        exact ⟨_, ec, Or.inl hmsg.symm⟩
      · split at h
        · rename_i ec hcp
          injection h with hmsg hlog
          exact ⟨odir ++ out, ec, Or.inr hmsg.symm⟩
        · exact ih _ _ _ h

theorem relocEntries_fail_shape (odir tmp : FsPath)
    (mk : FsPath → Option String) (cp : FsPath → FsPath → Option String) :
    ∀ (l : List FileDataI) (log : FsLog) (msg : String) (log' : FsLog),
      relocEntries odir tmp mk cp l log = RelocOut.fail msg log' →
      ∃ t ec, msg = mkdirErrorMessage t ec ∨ msg = copyErrorMessage t ec := by
  intro l
  induction l with
  | nil =>
      intro log msg log' h
      simp [relocEntries] at h
  | cons fd rest ih =>
      intro log msg log' h
      unfold relocEntries at h
      dsimp only at h
      split at h
      · exact ih _ _ _ h
      · rename_i m lg heq
        injection h with hmsg hlog
        subst hmsg
        by_cases hdir : fd.m_IsDirectory = true
        · rw [if_pos hdir] at heq
          exact relocDirOutputs_fail_shape odir mk _ _ _ _ heq
        · rw [if_neg hdir] at heq
          exact relocFileOutputs_fail_shape odir tmp fd.m_FileName mk cp
            _ _ _ _ heq

/-- Claim C5: a temporary-directory creation failure makes extract()
record `ERROR_OUT_OF_MEMORY`, report through the error callback, and
return false before the engine extraction is ever invoked; a
destination-directory creation or file-copy failure during relocation
makes extract() record `ERROR_LIBRARY_ERROR`, report a diagnostic
that embeds the offending path, and return false immediately, with
the directories and copies performed for earlier entries left in
place. -/
theorem extract_local_failure_spec :
    (∀ (s : ArchiveState) (odir : FsPath) (inp : ExtractIn),
        s.m_Valid = true → inp.errorCallback = true →
        inp.tmpDirResult = none →
        (extract s odir inp).ok = false ∧
        (extract s odir inp).state.m_LastError =
          Error.ERROR_OUT_OF_MEMORY ∧
        (extract s odir inp).engineInvoked = false ∧
        (extract s odir inp).events =
          [Event.error
            "Error creating a temporary directory for extraction"]) ∧
    (∀ (s : ArchiveState) (odir tmp : FsPath) (inp : ExtractIn)
        (engEvents : List Event) (msg : String) (log : FsLog),
        s.m_Valid = true → inp.errorCallback = true →
        inp.tmpDirResult = some tmp →
        runEngine { s with
            m_ProgressCallback := inp.progressCallback,
            m_FileChangeCallback := inp.fileChangeCallback,
            m_ErrorCallback := inp.errorCallback } inp.engineSignals
            inp.engineOutcome = (engEvents, Except.ok ()) →
        relocEntries odir tmp inp.mkdirEC inp.copyEC s.m_FileList
            { dirs := [], copies := [] } = RelocOut.fail msg log →
        (extract s odir inp).ok = false ∧
        (extract s odir inp).state.m_LastError =
          Error.ERROR_LIBRARY_ERROR ∧
        (extract s odir inp).events = engEvents ++ [Event.error msg] ∧
        (extract s odir inp).log = log ∧
        ∃ t ec, msg = mkdirErrorMessage t ec ∨
          msg = copyErrorMessage t ec) := by
  constructor
  · intro s odir inp hv he ht
    simp [extract, hv, he, ht, reportError]
  · intro s odir tmp inp engEvents msg log hv he ht hrun hreloc
    rw [hv, he] at hrun
    have hshape := relocEntries_fail_shape odir tmp inp.mkdirEC inp.copyEC
      s.m_FileList _ msg log hreloc
    refine ⟨?_, ?_, ?_, ?_, hshape⟩ <;>
      simp [extract, hv, he, ht, hrun, hreloc, reportError]

/-- Claim C5 witness: the temp-dir failure on session `sAB`, and a
copy failure on dest/b.txt after dest/a.txt was already copied,
keeping the earlier copy in the log. -/
theorem extract_local_failure_spec_witness :
    ((extract sAB ["dest"] failTmpIn).ok = false ∧
      (extract sAB ["dest"] failTmpIn).state.m_LastError =
        Error.ERROR_OUT_OF_MEMORY ∧
      (extract sAB ["dest"] failTmpIn).engineInvoked = false ∧
      (extract sAB ["dest"] failTmpIn).events =
        [Event.error
          "Error creating a temporary directory for extraction"]) ∧
    ((extract sAB ["dest"] failCopyIn).ok = false ∧
      (extract sAB ["dest"] failCopyIn).state.m_LastError =
        Error.ERROR_LIBRARY_ERROR ∧
      (extract sAB ["dest"] failCopyIn).events =
        [] ++ [Event.error (copyErrorMessage ["dest", "b.txt"] "disk full")] ∧
      (extract sAB ["dest"] failCopyIn).log =
        { dirs := [["dest"], ["dest"]],
          copies := [(["tmp", "a.txt"], ["dest", "a.txt"])] } ∧
      ∃ t ec,
        copyErrorMessage ["dest", "b.txt"] "disk full" =
          mkdirErrorMessage t ec ∨
        copyErrorMessage ["dest", "b.txt"] "disk full" =
          copyErrorMessage t ec) :=
  ⟨extract_local_failure_spec.1 sAB ["dest"] failTmpIn rfl rfl rfl,
   extract_local_failure_spec.2 sAB ["dest"] ["tmp"] failCopyIn []
     (copyErrorMessage ["dest", "b.txt"] "disk full")
     { dirs := [["dest"], ["dest"]],
       copies := [(["tmp", "a.txt"], ["dest", "a.txt"])] }
     rfl rfl rfl rfl rfl⟩

theorem selectIndicesAux_enumFrom (l : List FileDataI) :
    ∀ k, selectIndicesAux l k =
      ((List.enumFrom k l).filter (fun p => !p.2.isEmpty)).map Prod.fst := by
  induction l with
  | nil => intro k; rfl
  | cons fd rest ih =>
      intro k
      cases hfd : fd.isEmpty with
      | true =>
          simp [selectIndicesAux, List.enumFrom, List.filter_cons, hfd, ih]
      | false =>
          simp [selectIndicesAux, List.enumFrom, List.filter_cons, hfd, ih]

theorem mem_selectIndicesAux (l : List FileDataI) :
    ∀ k i, i ∈ selectIndicesAux l k ↔
      ∃ j, j < l.length ∧ i = k + j ∧ (l.getD j default).isEmpty = false := by
  induction l with
  | nil => intro k i; simp [selectIndicesAux]
  | cons fd rest ih =>
      intro k i
      cases hfd : fd.isEmpty with
      | true =>
          rw [selectIndicesAux, if_pos hfd, ih (k + 1) i]
          constructor
          · rintro ⟨j, hj, hi, hne⟩
            exact ⟨j + 1, by simpa using hj, by omega, by simpa using hne⟩
          · rintro ⟨j, hj, hi, hne⟩
            cases j with
            | zero => simp [hfd] at hne
            | succ j' =>
                exact ⟨j', by simpa using hj, by omega, by simpa using hne⟩
      | false =>
          rw [selectIndicesAux, if_neg (by simp [hfd])]
          simp only [List.mem_cons, ih (k + 1) i]
          constructor
          · rintro (rfl | ⟨j, hj, hi, hne⟩)
            · exact ⟨0, by simp, by omega, by simpa using hfd⟩
            · exact ⟨j + 1, by simpa using hj, by omega, by simpa using hne⟩
          · rintro ⟨j, hj, hi, hne⟩
            cases j with
            | zero => left; omega
            | succ j' =>
                right
                exact ⟨j', by simpa using hj, by omega, by simpa using hne⟩

theorem selectIndicesAux_lower_bound (l : List FileDataI) :
    ∀ k i, i ∈ selectIndicesAux l k → k ≤ i := by
  intro k i h
  rcases (mem_selectIndicesAux l k i).1 h with ⟨j, _, hi, _⟩
  omega

theorem selectIndicesAux_pairwise (l : List FileDataI) :
    ∀ k, List.Pairwise (· < ·) (selectIndicesAux l k) := by
  induction l with
  | nil => intro k; exact List.Pairwise.nil
  | cons fd rest ih =>
      intro k
      cases hfd : fd.isEmpty with
      | true =>
          rw [selectIndicesAux, if_pos hfd]
          exact ih (k + 1)
      | false =>
          rw [selectIndicesAux, if_neg (by simp [hfd])]
          refine List.Pairwise.cons ?_ (ih (k + 1))
          intro x hx
          have := selectIndicesAux_lower_bound rest (k + 1) x hx
          omega

/-- Claim C6: the index list extract() passes to the engine's
extractTo is exactly the list of catalog positions of entries whose
requested-output-path list is non-empty, in catalog order; an entry
with zero requested output paths never appears in it. -/
theorem extract_indices_spec :
    (∀ l : List FileDataI,
        selectIndices l =
          ((List.enumFrom 0 l).filter (fun p => !p.2.isEmpty)).map
            Prod.fst) ∧
    (∀ (l : List FileDataI) (i : Nat),
        i ∈ selectIndices l ↔
          i < l.length ∧ (l.getD i default).isEmpty = false) ∧
    (∀ l : List FileDataI, List.Pairwise (· < ·) (selectIndices l)) ∧
    (∀ (s : ArchiveState) (odir : FsPath) (inp : ExtractIn),
        s.m_Valid = true →
        (extract s odir inp).indices = selectIndices s.m_FileList) := by
  refine ⟨?_, ?_, ?_, ?_⟩
  · intro l
    exact selectIndicesAux_enumFrom l 0
  · intro l i
    rw [selectIndices, mem_selectIndicesAux l 0 i]
    constructor
    · rintro ⟨j, hj, hi, hne⟩
      exact ⟨by omega, by simpa [show i = j by omega] using hne⟩
    · rintro ⟨hlt, hne⟩
      exact ⟨i, hlt, by omega, hne⟩
  · intro l
    exact selectIndicesAux_pairwise l 0
  · intro s odir inp hv
    unfold extract
    split
    · rename_i hcond
      rw [hv] at hcond
      simp at hcond
    · dsimp only
      split
      · rfl
      · split
        · rfl
        · split
          · rfl
          · rfl

/-- Claim C6 witness: on a catalog interleaving selected and
unselected entries the index list is [0, 2], and extract() passes
exactly that list to extractTo. -/
theorem extract_indices_spec_witness :
    selectIndices [entryA, entryNoOutput, entryB] =
      ((List.enumFrom 0 [entryA, entryNoOutput, entryB]).filter
        (fun p => !p.2.isEmpty)).map Prod.fst ∧
    (extract sABskip ["dest"] benignIn).indices =
      selectIndices sABskip.m_FileList ∧
    selectIndices [entryA, entryNoOutput, entryB] = [0, 2] :=
  ⟨extract_indices_spec.1 [entryA, entryNoOutput, entryB],
   extract_indices_spec.2.2.2 sABskip ["dest"] benignIn rfl,
   by decide⟩

theorem resetFileList_m_Total (s : ArchiveState) :
    (resetFileList s).m_Total = s.m_Total := by
  unfold resetFileList clearFileList
  cases h : s.m_ArchivePtr <;> simp [h]

theorem runEngine_progress_total (s : ArchiveState)
    (sigs : List EngineSignal) (outcome : Except String Unit) :
    ∀ c t, Event.progress c t ∈ (runEngine s sigs outcome).1 →
      t = s.m_Total := by
  induction sigs with
  | nil =>
      intro c t h
      simp [runEngine] at h
  | cons sig rest ih =>
      intro c t h
      cases sig with
      | tick cur =>
          cases hp : s.m_ProgressCallback with
          | false =>
              rw [runEngine] at h
              rw [hp] at h
              simp at h
              exact ih c t h
          | true =>
              cases hc : s.m_shouldCancel with
              | false =>
                  simp [runEngine, progressCallbackWrapper, hp, hc] at h
                  rcases h with ⟨h1, h2⟩ | h
                  · exact h2
                  · exact ih c t h
              | true =>
                  simp [runEngine, progressCallbackWrapper, hp, hc] at h
                  exact h.2
      | fileStart p =>
          cases hp : s.m_FileChangeCallback with
          | false =>
              rw [runEngine] at h
              rw [hp] at h
              simp at h
              exact ih c t h
          | true =>
              simp [runEngine, fileChangeCallbackWrapper, hp] at h
              exact ih c t h

/-- Claim C10: every progress notification delivered during extract()
carries, as its total-bytes argument, the whole-archive size recorded
in `m_Total` at open() time; extract() never changes `m_Total`, and
the selected-subset total it computes locally is exposed only in the
ghost `totalSize` observation, never in any callback event. -/
theorem progress_total_spec :
    (∀ (s : ArchiveState) (odir : FsPath) (inp : ExtractIn) (c t : Nat),
        Event.progress c t ∈ (extract s odir inp).events →
        t = s.m_Total) ∧
    (∀ (s : ArchiveState) (pw : Option (Nat → String))
        (info : BitArchiveInfo), s.m_Valid = true →
        (openArchive s true false pw (Except.ok info)).2.m_Total =
          info.size) ∧
    (∀ (s : ArchiveState) (odir : FsPath) (inp : ExtractIn),
        (extract s odir inp).state.m_Total = s.m_Total) ∧
    (∀ (s : ArchiveState) (odir : FsPath) (inp : ExtractIn),
        s.m_Valid = true →
        (extract s odir inp).totalSize =
          selectedTotalSize s.m_FileList) := by
  refine ⟨?_, ?_, ?_, ?_⟩
  · intro s odir inp c t
    unfold extract
    split
    · intro h; simp at h
    · dsimp only
      split
      · intro h
        simp [reportError] at h
      · split
        · rename_i engEvents exText heq
          intro h
          simp [reportError] at h
          exact runEngine_progress_total { s with
              m_ProgressCallback := inp.progressCallback,
              m_FileChangeCallback := inp.fileChangeCallback,
              m_ErrorCallback := inp.errorCallback } inp.engineSignals
            inp.engineOutcome c t (by rw [heq]; exact h)
        · rename_i engEvents u heq
          split
          · intro h
            exact runEngine_progress_total { s with
                m_ProgressCallback := inp.progressCallback,
                m_FileChangeCallback := inp.fileChangeCallback,
                m_ErrorCallback := inp.errorCallback } inp.engineSignals
              inp.engineOutcome c t (by rw [heq]; exact h)
          · intro h
            simp [reportError] at h
            exact runEngine_progress_total { s with
                m_ProgressCallback := inp.progressCallback,
                m_FileChangeCallback := inp.fileChangeCallback,
                m_ErrorCallback := inp.errorCallback } inp.engineSignals
              inp.engineOutcome c t (by rw [heq]; exact h)
  · intro s pw info hv
    simp [openArchive, hv, resetFileList_m_Total]
  · intro s odir inp
    unfold extract
    split
    · rfl
    · dsimp only
      split
      · rfl
      · split
        · rfl
        · split
          · rfl
          · rfl
  · intro s odir inp hv
    unfold extract
    split
    · rename_i hcond
      rw [hv] at hcond
      simp at hcond
    · dsimp only
      split
      · rfl
      · split
        · rfl
        · split
          · rfl
          · rfl

/-- Claim C10 witness: a session opened with whole-archive total 30
whose single selected entry sums to 10; the one progress tick carries
total 30, and the local subset total 10 is never in any event. -/
theorem progress_total_spec_witness :
    (30 : Nat) = sC10.m_Total ∧
    selectedTotalSize sC10.m_FileList = 10 ∧
    (extract sC10 ["dest"] tick5In).totalSize =
      selectedTotalSize sC10.m_FileList ∧
    (extract sC10 ["dest"] tick5In).state.m_Total = sC10.m_Total ∧
    (openArchive freshState true false none
        (Except.ok sampleInfo)).2.m_Total = sampleInfo.size :=
  ⟨progress_total_spec.1 sC10 ["dest"] tick5In 5 30 (by decide),
   rfl,
   progress_total_spec.2.2.2 sC10 ["dest"] tick5In rfl,
   progress_total_spec.2.2.1 sC10 ["dest"] tick5In,
   progress_total_spec.2.1 freshState none sampleInfo rfl⟩
